import Mathlib

/-!
Shallow embedding of the SwiftTask per-client task service
(source: src/api/v1/app.py, a FastAPI application).

Modelling conventions:
* `UUID` values are modelled as `Nat` (opaque identifiers); the id generated
  by `uuid4()` at creation time becomes an explicit `newId` parameter.
* `datetime` values are modelled as `Int` timestamps (seconds);
  `datetime.utcnow()` becomes an explicit `now` parameter and
  `timedelta(hours=1)` becomes the constant `oneHour = 3600`.
* A Python `dict` preserves insertion order, assignment to an existing key
  keeps its position, assignment to a fresh key appends; collections
  (`Dict[UUID, Task]`) and the process-wide store (`Dict[str, Dict[UUID, Task]]`)
  are therefore modelled as association lists with exactly those operations.
* Each endpoint returns its response paired with the possibly-extended store
  (`get_client_tasks` lazily creates a client's collection).
* A request-body field can be absent, an explicit JSON `null`, or a value;
  `JsonField` keeps the three states apart wherever the source distinguishes
  them (pydantic's parse-time defaults and `exclude_unset`). Two
  unhandled-exception paths of the source — the `KeyError` of deleting a
  self-parented task and the response-validation failure after `setattr`
  stores `None` in a non-optional field — surface as the `keyError` and
  `schemaViolation` errors.
* The notification strings built with f-strings are modelled by the
  `Notification` inductive carrying what the rendered text names: the kind of
  message, the task's title and its id.
-/

namespace SwiftTask

/-- The `Task` pydantic model of app.py. -/
structure Task where
  id : Nat
  title : String
  description : Option String
  completed : Bool
  created_at : Int
  updated_at : Int
  due_date : Option Int
  priority : Nat
  tags : List String
  parent_id : Option Nat
deriving DecidableEq, Repr

/-- The state of one field of a request body: absent from the body, present
with the JSON value `null`, or present with a value. pydantic v1 records
presence in `fields_set` (observed through `exclude_unset`), so the three
states are distinguishable wherever the source distinguishes them. -/
inductive JsonField (α : Type) where
  | unset
  | null
  | val (a : α)
deriving DecidableEq, Repr

/-- True exactly on a field explicitly set to `null`. -/
def isNullField {α : Type} : JsonField α → Bool
  | .null => true
  | _ => false

/-- The `TaskCreate` pydantic model: request body for create, create-subtask
and full update. `priority` and `tags` carry parse-time defaults (3 and
`[]`), so an omitted field and an explicit `null` reach the handlers as
different values (the default vs `None`): they are kept tri-state here and
each handler's definition composes the parse-time default with the source's
`is not None` check. For `description`, `due_date` and `parent_id` an
omitted field and an explicit `null` both parse to `None` and every handler
writes the parsed value through unconditionally, so one `Option` represents
both without loss. A missing or `null` `title`, or an out-of-range
`priority` value, is rejected by pydantic before any handler runs and is
outside this model. -/
structure TaskCreate where
  title : String
  description : Option String
  due_date : Option Int
  priority : JsonField Nat
  tags : JsonField (List String)
  parent_id : Option Nat
deriving DecidableEq, Repr

/-- The `TaskUpdate` pydantic model: request body for PATCH. Every field is
`Optional` with no meaningful default, pydantic accepts an explicit `null`
for each of them (the `ge`/`le` bounds are skipped for `None`), and
`dict(exclude_unset=True)` keeps exactly the fields present in the body —
explicit `null` included — which the handler then `setattr`s into the
stored task. Each field is therefore kept tri-state. -/
structure TaskUpdate where
  title : JsonField String
  description : JsonField String
  completed : JsonField Bool
  due_date : JsonField Int
  priority : JsonField Nat
  tags : JsonField (List String)
  parent_id : JsonField Nat
deriving DecidableEq, Repr

abbrev Collection := List Task
abbrev Store := List (String × Collection)

/-- Failure of a handler as surfaced over HTTP. `notFound` is the raised
`HTTPException(404)`. The other two are unhandled 500s the source can
produce: `keyError` is the `KeyError` of `del client_tasks[task_id]` when
the cascade pass already removed that key, and `schemaViolation` is the
response-validation failure after `setattr` stored `None` in a field the
`Task` model types as non-optional. -/
inductive ApiError where
  | notFound
  | keyError
  | schemaViolation
deriving DecidableEq, Repr

deriving instance DecidableEq for Except

/-- `client_tasks.get(task_id)`: dict lookup (the key of a stored task is
always its own `id`, see `dictInsert`). -/
def dictGet : Collection → Nat → Option Task
  | [], _ => none
  | t :: rest, tid => if t.id == tid then some t else dictGet rest tid

/-- `task_id in client_tasks`: dict key-membership test. -/
def dictContains (c : Collection) (tid : Nat) : Bool :=
  (dictGet c tid).isSome

/-- `client_tasks[t.id] = t`: dict assignment — replace in place when the key
exists, append otherwise. -/
def dictInsert : Collection → Task → Collection
  | [], t => [t]
  | u :: rest, t => if u.id == t.id then t :: rest else u :: dictInsert rest t

/-- `del client_tasks[tid]`: dict key deletion. -/
def dictDel (c : Collection) (tid : Nat) : Collection :=
  c.filter (fun t => t.id != tid)

/-- `tasks_db[ip]` lookup without creation. -/
def storeFind : Store → String → Option Collection
  | [], _ => none
  | p :: rest, ip => if p.1 == ip then some p.2 else storeFind rest ip

/-- `tasks_db[ip] = c`: assignment into the process-wide store. -/
def storeSet : Store → String → Collection → Store
  | [], ip, c => [(ip, c)]
  | p :: rest, ip, c => if p.1 == ip then (ip, c) :: rest else p :: storeSet rest ip c

/-- `get_client_tasks(ip)`: returns the client's collection, creating an
empty one in the store on first access. -/
def get_client_tasks (db : Store) (ip : String) : Collection × Store :=
  match storeFind db ip with
  | some c => (c, db)
  | none => ([], db ++ [(ip, [])])

/-- The collection a client currently sees (empty when never accessed). -/
def clientView (db : Store) (ip : String) : Collection :=
  (storeFind db ip).getD []

/-- `timedelta(hours=1)` in the timestamp unit of the model. -/
def oneHour : Int := 3600

/-- What a notification string names: its kind (overdue / due in less than
one hour), the task's title and the task's id. -/
inductive Notification where
  | overdue (title : String) (id : Nat)
  | dueSoon (title : String) (id : Nat)
deriving DecidableEq, Repr

/-- `get_notifications(tasks)` of app.py: one pass over the tasks in order;
a task with a due date that is not completed contributes an overdue message
when `now > due_date`, else a due-soon message when `due_date - now` is less
than one hour. -/
def get_notifications (tasks : List Task) (now : Int) : List Notification :=
  match tasks with
  | [] => []
  | task :: rest =>
    (match task.due_date with
     | some d =>
       if task.completed then []
       else if now > d then [.overdue task.title task.id]
       else if d - now < oneHour then [.dueSoon task.title task.id]
       else []
     | none => []) ++ get_notifications rest now

/-- `POST /tasks/` (`create_task`): builds a new `Task` from the request
body and inserts it into the client's collection. An omitted `priority`
parses to the default 3 while an explicit `null` parses to `None`, which
the handler's `is not None` check also maps to 3; `tags` likewise falls
back to `[]` in both cases. -/
def create_task (task : TaskCreate) (client_ip : String) (newId : Nat) (now : Int)
    (db : Store) : Task × Store :=
  let r := get_client_tasks db client_ip
  let new_task : Task :=
    { id := newId
      title := task.title
      description := task.description
      completed := false
      created_at := now
      updated_at := now
      due_date := task.due_date
      priority := match task.priority with
        | .val p => p
        | _ => 3
      tags := match task.tags with
        | .val ts => ts
        | _ => []
      parent_id := task.parent_id }
  (new_task, storeSet r.2 client_ip (dictInsert r.1 new_task))

/-- `GET /tasks/` (`list_tasks`): applies the optional filters in the order
of the source (`completed`, `tag` — skipped when the string is empty, since
`if tag:` is false on `""` —, `priority`, `parent`), then the Python slice
`[skip : skip + limit]`. -/
def list_tasks (completed : Option Bool) (tag : Option String) (priority : Option Nat)
    (parent : Option Bool) (limit : Nat) (skip : Nat) (client_ip : String)
    (db : Store) : List Task × Store :=
  let r := get_client_tasks db client_ip
  let c1 : Collection := match completed with
    | some b => r.1.filter (fun t => t.completed == b)
    | none => r.1
  let c2 : Collection := match tag with
    | some s => if s = "" then c1 else c1.filter (fun t => t.tags.contains s)
    | none => c1
  let c3 : Collection := match priority with
    | some p => c2.filter (fun t => t.priority == p)
    | none => c2
  let c4 : Collection :=
    if parent == some true then c3.filter (fun t => t.parent_id.isNone) else c3
  ((c4.drop skip).take limit, r.2)

/-- `GET /tasks/{task_id}` (`get_task`): 404 when the id is absent from the
caller's collection. -/
def get_task (task_id : Nat) (client_ip : String) (db : Store) :
    Except ApiError Task × Store :=
  let r := get_client_tasks db client_ip
  match dictGet r.1 task_id with
  | none => (.error .notFound, r.2)
  | some task => (.ok task, r.2)

/-- `PUT /tasks/{task_id}` (`update_task`): full update — `title`,
`description`, `due_date`, `parent_id` are overwritten with the body values
unconditionally. For `priority` and `tags` the handler keeps the stored
value only when it sees `None`, i.e. only on an explicit `null`: an omitted
field was already parsed to the default (3 / `[]`) and overwrites.
`updated_at` is set to now; `id`, `created_at`, `completed` are
untouched. -/
def update_task (task_id : Nat) (task_data : TaskCreate) (client_ip : String)
    (now : Int) (db : Store) : Except ApiError Task × Store :=
  let r := get_client_tasks db client_ip
  match dictGet r.1 task_id with
  | none => (.error .notFound, r.2)
  | some task =>
    let task' : Task :=
      { task with
        title := task_data.title
        description := task_data.description
        due_date := task_data.due_date
        priority := match task_data.priority with
          | .unset => 3
          | .null => task.priority
          | .val p => p
        tags := match task_data.tags with
          | .unset => []
          | .null => task.tags
          | .val ts => ts
        parent_id := task_data.parent_id
        updated_at := now }
    (.ok task', storeSet r.2 client_ip (dictInsert r.1 task'))

/-- `PATCH /tasks/{task_id}` (`partial_update_task`): applies exactly the
fields present in the body (`exclude_unset=True` + `setattr`), then sets
`updated_at` to now. An explicit `null` on `description`, `due_date` or
`parent_id` stores `None`, a legal value there. An explicit `null` on
`title`, `completed`, `priority` or `tags` makes `setattr` store `None` in
a field the `Task` schema types as non-optional: the stored object leaves
the typed domain of this model's `Collection` and the request then fails
FastAPI's response validation (HTTP 500). The model returns
`schemaViolation` on that path and keeps the typed collection as it was;
the Python dict retains the ill-typed object, whose later reads fail the
same response validation. In the guarded branch the wildcard arms of the
non-nullable fields cover only `unset`. -/
def partial_update_task (task_id : Nat) (task_data : TaskUpdate) (client_ip : String)
    (now : Int) (db : Store) : Except ApiError Task × Store :=
  let r := get_client_tasks db client_ip
  match dictGet r.1 task_id with
  | none => (.error .notFound, r.2)
  | some task =>
    if isNullField task_data.title || isNullField task_data.completed ||
        isNullField task_data.priority || isNullField task_data.tags then
      (.error .schemaViolation, r.2)
    else
      let task' : Task :=
        { task with
          title := match task_data.title with
            | .val x => x
            | _ => task.title
          description := match task_data.description with
            | .unset => task.description
            | .null => none
            | .val x => some x
          completed := match task_data.completed with
            | .val x => x
            | _ => task.completed
          due_date := match task_data.due_date with
            | .unset => task.due_date
            | .null => none
            | .val x => some x
          priority := match task_data.priority with
            | .val x => x
            | _ => task.priority
          tags := match task_data.tags with
            | .val x => x
            | _ => task.tags
          parent_id := match task_data.parent_id with
            | .unset => task.parent_id
            | .null => none
            | .val x => some x
          updated_at := now }
      (.ok task', storeSet r.2 client_ip (dictInsert r.1 task'))

/-- `DELETE /tasks/{task_id}` (`delete_task`): 404 when absent; otherwise
the cascade pass deletes every task of the collection whose `parent_id`
equals `task_id`, then `del client_tasks[task_id]` removes the task itself
and the success message is returned. When the task is its own parent the
cascade pass already removed key `task_id`, so the final `del` raises
`KeyError` (an unhandled 500) with the cascade deletions persisted. -/
def delete_task (task_id : Nat) (client_ip : String) (db : Store) :
    Except ApiError String × Store :=
  let r := get_client_tasks db client_ip
  if dictContains r.1 task_id then
    let afterSubtasks := r.1.filter (fun t => !(t.parent_id == some task_id))
    if dictContains afterSubtasks task_id then
      (.ok "Tarea eliminada correctamente",
        storeSet r.2 client_ip (dictDel afterSubtasks task_id))
    else
      (.error .keyError, storeSet r.2 client_ip afterSubtasks)
  else
    (.error .notFound, r.2)

/-- `GET /tasks/{task_id}/subtasks` (`list_subtasks`): 404 when the parent id
is absent; otherwise the tasks whose `parent_id` equals it, in collection
order. -/
def list_subtasks (task_id : Nat) (client_ip : String) (db : Store) :
    Except ApiError (List Task) × Store :=
  let r := get_client_tasks db client_ip
  if dictContains r.1 task_id then
    (.ok (r.1.filter (fun t => t.parent_id == some task_id)), r.2)
  else
    (.error .notFound, r.2)

/-- `POST /tasks/{task_id}/subtasks` (`create_subtask`): 404 when the parent
id is absent; otherwise builds a task exactly like `create_task` but with
`parent_id` forced to the path's `task_id`. -/
def create_subtask (task_id : Nat) (subtask_data : TaskCreate) (client_ip : String)
    (newId : Nat) (now : Int) (db : Store) : Except ApiError Task × Store :=
  let r := get_client_tasks db client_ip
  if dictContains r.1 task_id then
    let subtask : Task :=
      { id := newId
        title := subtask_data.title
        description := subtask_data.description
        completed := false
        created_at := now
        updated_at := now
        due_date := subtask_data.due_date
        priority := match subtask_data.priority with
          | .val p => p
          | _ => 3
        tags := match subtask_data.tags with
          | .val ts => ts
          | _ => []
        parent_id := some task_id }
    (.ok subtask, storeSet r.2 client_ip (dictInsert r.1 subtask))
  else
    (.error .notFound, r.2)

/-- The body of the `GET /tasks/stats` response. -/
structure Stats where
  total_tasks : Nat
  completed_tasks : Nat
  pending_tasks : Nat
  overdue_tasks : Nat
deriving DecidableEq, Repr

/-- `GET /tasks/stats` (`tasks_stats`): recomputed aggregates over the
caller's current collection. -/
def tasks_stats (client_ip : String) (now : Int) (db : Store) : Stats × Store :=
  let r := get_client_tasks db client_ip
  let total := r.1.length
  let completedCount := (r.1.filter (fun t => t.completed)).length
  let pending := total - completedCount
  let overdue := (r.1.filter (fun t =>
    match t.due_date with
    | some d => decide (d < now) && !t.completed
    | none => false)).length
  ({ total_tasks := total
     completed_tasks := completedCount
     pending_tasks := pending
     overdue_tasks := overdue }, r.2)

/-- `GET /tasks/notifications` (`tasks_notifications`). -/
def tasks_notifications (client_ip : String) (now : Int) (db : Store) :
    List Notification × Store :=
  let r := get_client_tasks db client_ip
  (get_notifications r.1 now, r.2)

/-! ### Spec-side definitions

These two definitions transcribe the specification's words (not the code);
the refinement theorems below compare the code with them. -/

/-- Modelled from the spec: the conjunctive filter semantics of `List` —
`completed` by exact match, `tag` by exact membership in the task's tags,
`priority` by exact match, `parent_only` keeping only tasks with no
`parent_id`; an absent filter excludes nothing. -/
def matchesFiltersSpec (completed : Option Bool) (tag : Option String)
    (priority : Option Nat) (parent_only : Bool) (t : Task) : Bool :=
  (match completed with | some b => t.completed == b | none => true) &&
  (match tag with | some s => t.tags.contains s | none => true) &&
  (match priority with | some p => t.priority == p | none => true) &&
  (!parent_only || t.parent_id.isNone)

/-- Modelled from the spec: the message a single task contributes to
`Notifications` — for a task with a `due_date` and `completed = false`, an
overdue message naming title and id when the due date is in the past, else a
due-soon message when the due date is within one hour of the current time,
and no message otherwise; completed tasks and tasks without a due date
contribute nothing. -/
def notificationOfSpec (now : Int) (t : Task) : Option Notification :=
  match t.due_date with
  | some d =>
    if t.completed then none
    else if d < now then some (.overdue t.title t.id)
    else if d - now < oneHour then some (.dueSoon t.title t.id)
    else none
  | none => none

/-- `appliedField input old new` says PATCH behaved per the claim on one
field whose stored type is not optional: present-with-value sets it, an
absent field keeps the stored value. -/
def appliedField {α : Type} (input : JsonField α) (old new : α) : Prop :=
  (∀ x, input = .val x → new = x) ∧ (input = .unset → new = old)

/-- As `appliedField`, for a field whose stored type is optional, where an
explicit `null` stores `none`. -/
def appliedNullableField {α : Type} (input : JsonField α) (old new : Option α) :
    Prop :=
  (∀ x, input = .val x → new = some x) ∧ (input = .null → new = none) ∧
  (input = .unset → new = old)

/-- `putDefaulted input dflt old new` says full update behaved per the
parse-then-handler semantics on `priority`/`tags`: an omitted field is
parsed to the boundary default and written through, an explicit `null`
keeps the stored value, a value overwrites. -/
def putDefaulted {α : Type} (input : JsonField α) (dflt old new : α) : Prop :=
  (input = .unset → new = dflt) ∧ (input = .null → new = old) ∧
  (∀ x, input = .val x → new = x)

/-- A baseline concrete task used by the witness theorems. -/
def baseTask : Task :=
  { id := 0
    title := "t"
    description := none
    completed := false
    created_at := 0
    updated_at := 0
    due_date := none
    priority := 3
    tags := []
    parent_id := none }

/-- An all-absent PATCH body used by the witness theorems. -/
def emptyUpdate : TaskUpdate :=
  { title := .unset
    description := .unset
    completed := .unset
    due_date := .unset
    priority := .unset
    tags := .unset
    parent_id := .unset }

/-- A minimal create body used by the witness theorems. -/
def baseCreate : TaskCreate :=
  { title := "t"
    description := none
    due_date := none
    priority := .unset
    tags := .unset
    parent_id := none }

/-- Concrete stored task used by the witness theorems of the update
claims: id 1, title "X", priority 2, `updated_at` 5. -/
def demoStoredX : Task :=
  { baseTask with id := 1, title := "X", priority := 2, updated_at := 5 }

/-- Concrete stored task used by the full-update witness: id 1, title "X",
priority 2, a description and `completed = true`. -/
def demoStoredFull : Task :=
  { baseTask with id := 1, title := "X", priority := 2, description := some "old", completed := true }

/-- A tagged concrete task used by the witness theorems of the List
claims. -/
def demoTagged (i : Nat) (tg : List String) : Task :=
  { baseTask with id := i, tags := tg }

/-- A self-parented stored task (reachable: PATCH or PUT may set
`parent_id` to the task's own id, since nothing checks references): the
input of the delete counterexample. -/
def selfParentTask : Task :=
  { baseTask with id := 1, parent_id := some 1 }

/-- Stored task with priority 2 and one tag: input of the full-update
counterexample. -/
def demoPutStored : Task :=
  { baseTask with id := 1, priority := 2, tags := ["k"] }

/-- A PUT body that omits `priority` and `tags` entirely. -/
def putOmitBody : TaskCreate :=
  { title := "new"
    description := none
    due_date := none
    priority := .unset
    tags := .unset
    parent_id := none }

/-- The task the full-update counterexample stores: the omitted `priority`
and `tags` came back as the parse-time defaults 3 and `[]` (`baseTask`
carries exactly those). -/
def putOverwriteResult : Task :=
  { baseTask with id := 1, title := "new", updated_at := 10 }

/-- A PUT body supplying `priority` as an explicit `null` and omitting
`tags`. -/
def demoPutNullPriority : TaskCreate :=
  { title := "new"
    description := none
    due_date := none
    priority := .null
    tags := .unset
    parent_id := none }

/-- The boundary validation pydantic performs on a PATCH body's `priority`
field: the `ge=1, le=5` bounds are checked only on an integer value — an
absent field passes, and so does an explicit `null`, because `Optional[int]`
skips the bound checks for `None`. -/
def validPriority : JsonField Nat → Bool
  | .unset => true
  | .null => true
  | .val p => decide (1 ≤ p ∧ p ≤ 5)

/-! ### Basic lemmas about the dictionary model -/

theorem gct_fst (db : Store) (ip : String) :
    (get_client_tasks db ip).1 = clientView db ip := by
  unfold get_client_tasks clientView
  cases storeFind db ip <;> simp

theorem storeFind_append (db1 db2 : Store) (ip : String) :
    storeFind (db1 ++ db2) ip =
      match storeFind db1 ip with
      | some c => some c
      | none => storeFind db2 ip := by
  induction db1 with
  | nil => simp [storeFind]
  | cons p rest ih =>
    by_cases h : p.1 == ip <;> simp [storeFind, h, ih]

theorem clientView_gct_snd (db : Store) (ip ip' : String) :
    clientView (get_client_tasks db ip).2 ip' = clientView db ip' := by
  unfold get_client_tasks
  cases h : storeFind db ip with
  | some c => simp
  | none =>
    unfold clientView
    rw [storeFind_append]
    cases h' : storeFind db ip' with
    | some c => simp
    | none =>
      by_cases hip : ip == ip' <;> simp [storeFind, hip]

theorem storeFind_storeSet_self (db : Store) (ip : String) (c : Collection) :
    storeFind (storeSet db ip c) ip = some c := by
  induction db with
  | nil => simp [storeSet, storeFind]
  | cons p rest ih =>
    by_cases h : p.1 == ip <;> simp [storeSet, storeFind, h, ih]

theorem storeFind_storeSet_ne (db : Store) (ip ip' : String) (c : Collection)
    (h : ip ≠ ip') : storeFind (storeSet db ip c) ip' = storeFind db ip' := by
  induction db with
  | nil => simp [storeSet, storeFind, h]
  | cons p rest ih =>
    by_cases hp : p.1 == ip
    · have hp' : p.1 = ip := by simpa using hp
      simp [storeSet, storeFind, hp, hp', h]
    · simp [storeSet, storeFind, hp, ih]

theorem clientView_storeSet_self (db : Store) (ip : String) (c : Collection) :
    clientView (storeSet db ip c) ip = c := by
  simp [clientView, storeFind_storeSet_self]

theorem clientView_storeSet_ne (db : Store) (ip ip' : String) (c : Collection)
    (h : ip ≠ ip') : clientView (storeSet db ip c) ip' = clientView db ip' := by
  simp [clientView, storeFind_storeSet_ne db ip ip' c h]

theorem dictGet_id (c : Collection) (tid : Nat) (t : Task)
    (h : dictGet c tid = some t) : t.id = tid := by
  induction c with
  | nil => simp [dictGet] at h
  | cons u rest ih =>
    by_cases hu : u.id == tid
    · simp [dictGet, hu] at h
      subst h
      simpa using hu
    · simp [dictGet, hu] at h
      exact ih h

theorem dictGet_mem (c : Collection) (tid : Nat) (t : Task)
    (h : dictGet c tid = some t) : t ∈ c := by
  induction c with
  | nil => simp [dictGet] at h
  | cons u rest ih =>
    by_cases hu : u.id == tid
    · simp [dictGet, hu] at h
      simp [h]
    · simp [dictGet, hu] at h
      exact List.mem_cons_of_mem u (ih h)

theorem dictGet_dictInsert_self (c : Collection) (t : Task) (tid : Nat)
    (h : t.id = tid) : dictGet (dictInsert c t) tid = some t := by
  induction c with
  | nil => simp [dictInsert, dictGet, h]
  | cons u rest ih =>
    by_cases hu : u.id == t.id
    · have hu2 : u.id = tid := by
        subst h
        simpa using hu
      simp [dictInsert, hu, dictGet, hu2, h]
    · have hu' : (u.id == tid) = false := by
        subst h
        simpa using hu
      simp [dictInsert, hu, dictGet, hu', ih]

theorem mem_dictInsert (c : Collection) (t u : Task)
    (h : u ∈ dictInsert c t) : u ∈ c ∨ u = t := by
  induction c with
  | nil => simpa [dictInsert] using h
  | cons v rest ih =>
    by_cases hv : v.id == t.id
    · simp [dictInsert, hv] at h
      rcases h with h | h
      · right; exact h
      · left; exact List.mem_cons_of_mem v h
    · simp [dictInsert, hv] at h
      rcases h with h | h
      · left; simp [h]
      · rcases ih h with h' | h'
        · left; exact List.mem_cons_of_mem v h'
        · right; exact h'

theorem dictContains_false_iff (c : Collection) (tid : Nat) :
    dictContains c tid = false ↔ dictGet c tid = none := by
  simp [dictContains, Option.isSome]
  cases dictGet c tid <;> simp

theorem dictContains_of_mem (c : Collection) (tid : Nat) (t : Task)
    (h : t ∈ c) (hid : t.id = tid) : dictContains c tid = true := by
  induction c with
  | nil => simp at h
  | cons u rest ih =>
    by_cases hu : u.id == tid
    · simp [dictContains, dictGet, hu]
    · rcases List.mem_cons.mp h with h' | h'
      · subst h'
        simp [hid] at hu
      · simpa [dictContains, dictGet, hu] using ih h'

theorem dictGet_filter_none (c : Collection) (tid : Nat) (P : Task → Bool)
    (h : ∀ u ∈ c, u.id = tid → P u = false) :
    dictGet (c.filter P) tid = none := by
  induction c with
  | nil => simp [dictGet]
  | cons u rest ih =>
    have hrest := ih fun v hv hvid => h v (List.mem_cons_of_mem u hv) hvid
    cases hP : P u with
    | true =>
      have hu : (u.id == tid) = false := by
        by_cases hid : u.id = tid
        · have hfalse := h u (List.mem_cons_self u rest) hid
          rw [hP] at hfalse
          simp at hfalse
        · simpa using hid
      simpa [List.filter_cons, hP, dictGet, hu] using hrest
    | false => simpa [List.filter_cons, hP] using hrest

/-- A task visible in a client's view belongs to some entry of the store. -/
theorem clientView_subset (db : Store) (ip : String) (t : Task)
    (h : t ∈ clientView db ip) : ∃ p ∈ db, t ∈ p.2 := by
  unfold clientView at h
  induction db with
  | nil => simp [storeFind] at h
  | cons p rest ih =>
    by_cases hp : p.1 == ip
    · simp [storeFind, hp] at h
      exact ⟨p, List.mem_cons_self p rest, h⟩
    · simp [storeFind, hp] at h
      rcases ih h with ⟨q, hq, htq⟩
      exact ⟨q, List.mem_cons_of_mem p hq, htq⟩

theorem mem_storeSet (db : Store) (ip : String) (c : Collection)
    (p : String × Collection) (h : p ∈ storeSet db ip c) :
    p ∈ db ∨ p = (ip, c) := by
  induction db with
  | nil => simpa [storeSet] using h
  | cons q rest ih =>
    by_cases hq : q.1 == ip
    · simp [storeSet, hq] at h
      rcases h with h | h
      · right; exact h
      · left; exact List.mem_cons_of_mem q h
    · simp [storeSet, hq] at h
      rcases h with h | h
      · left; simp [h]
      · rcases ih h with h' | h'
        · left; exact List.mem_cons_of_mem q h'
        · right; exact h'

theorem mem_gct_snd (db : Store) (ip : String) (p : String × Collection)
    (h : p ∈ (get_client_tasks db ip).2) : p ∈ db ∨ p = (ip, []) := by
  unfold get_client_tasks at h
  cases hf : storeFind db ip with
  | some c => rw [hf] at h; left; exact h
  | none =>
    rw [hf] at h
    simp at h
    rcases h with h | h
    · left; exact h
    · right; simp [h]

theorem get_notifications_eq_filterMap (ts : List Task) (now : Int) :
    get_notifications ts now = ts.filterMap (notificationOfSpec now) := by
  induction ts with
  | nil => rfl
  | cons t rest ih =>
    cases hd : t.due_date with
    | none => simp [get_notifications, notificationOfSpec, hd, ih]
    | some d =>
      by_cases hc : t.completed
      · simp [get_notifications, notificationOfSpec, hd, hc, ih]
      · by_cases hlt : d < now
        · simp [get_notifications, notificationOfSpec, hd, hc, hlt, ih]
        · by_cases hsoon : d - now < oneHour
          · simp [get_notifications, notificationOfSpec, hd, hc, hlt, hsoon, ih]
          · simp [get_notifications, notificationOfSpec, hd, hc, hlt, hsoon, ih]

theorem length_filter_disjoint_le {α : Type} (l : List α) (p q : α → Bool)
    (h : ∀ x, p x = true → q x = false) :
    (l.filter p).length + (l.filter q).length ≤ l.length := by
  induction l with
  | nil => simp
  | cons a t ih =>
    by_cases hp : p a
    · have hq := h a hp
      simp [List.filter_cons, hp, hq]
      omega
    · by_cases hq : q a <;> simp [List.filter_cons, hp, hq] <;> omega

/-! ### Claim theorems -/

/-- C10: calling List with the tag filter set to the empty string behaves
exactly as if no tag filter were supplied — no task is excluded for lacking
the empty string among its tags; only a non-empty tag value filters. -/
theorem list_tasks_empty_tag_spec (completed : Option Bool) (priority : Option Nat)
    (parent : Option Bool) (limit skip : Nat) (client_ip : String) (db : Store) :
    list_tasks completed (some "") priority parent limit skip client_ip db =
      list_tasks completed none priority parent limit skip client_ip db := by
  simp [list_tasks]

/-- C6: Notifications emits, in collection order, exactly the message
`notificationOfSpec` assigns to each task — an overdue message naming title
and id for a not-completed task whose due date is past, else a due-soon
message when the due date is within one hour, nothing otherwise, and nothing
for tasks without a due date or already completed. -/
theorem tasks_notifications_spec (client_ip : String) (now : Int) (db : Store) :
    (tasks_notifications client_ip now db).1 =
      (clientView db client_ip).filterMap (notificationOfSpec now) := by
  show get_notifications (get_client_tasks db client_ip).1 now = _
  rw [gct_fst, get_notifications_eq_filterMap]

/-- C5: Stats returns total = collection size, completed = count of
completed tasks, pending = total - completed, overdue = count of
not-completed tasks with a due date strictly in the past; consequently
total = completed + pending and overdue ≤ pending. -/
theorem tasks_stats_spec (client_ip : String) (now : Int) (db : Store) :
    (tasks_stats client_ip now db).1.total_tasks = (clientView db client_ip).length ∧
    (tasks_stats client_ip now db).1.completed_tasks =
      ((clientView db client_ip).filter (fun t => t.completed)).length ∧
    (tasks_stats client_ip now db).1.pending_tasks =
      (tasks_stats client_ip now db).1.total_tasks -
        (tasks_stats client_ip now db).1.completed_tasks ∧
    (tasks_stats client_ip now db).1.overdue_tasks =
      ((clientView db client_ip).filter (fun t =>
        match t.due_date with
        | some d => decide (d < now) && !t.completed
        | none => false)).length ∧
    (tasks_stats client_ip now db).1.total_tasks =
      (tasks_stats client_ip now db).1.completed_tasks +
        (tasks_stats client_ip now db).1.pending_tasks ∧
    (tasks_stats client_ip now db).1.overdue_tasks ≤
      (tasks_stats client_ip now db).1.pending_tasks := by
  have hv := gct_fst db client_ip
  have hdisj := length_filter_disjoint_le (clientView db client_ip)
    (fun t => match t.due_date with
      | some d => decide (d < now) && !t.completed
      | none => false)
    (fun t => t.completed)
    (by
      intro t ht
      cases hd : t.due_date with
      | none => simp [hd] at ht
      | some d =>
        simp [hd] at ht
        simpa using ht.2)
  have hle : ((clientView db client_ip).filter (fun t => t.completed)).length ≤
      (clientView db client_ip).length := List.length_filter_le _ _
  simp only [tasks_stats, hv]
  refine ⟨trivial, trivial, trivial, trivial, by omega, by omega⟩

/-- C1 (amended): for a present id whose stored task is not its own parent,
Delete first removes exactly the tasks of the same collection whose
`parent_id` equals the deleted id (one level only — any task whose id and
`parent_id` both differ from the deleted id, in particular a grandchild,
stays), then removes the task itself and returns the success message; it
fails with NotFound when the id is absent; and when every task keyed by the
id is its own parent, the cascade pass itself removes it, the final
deletion raises `KeyError` (an unhandled 500) and only the cascade
deletions persist. -/
theorem delete_task_spec (db : Store) (client_ip : String) (tid : Nat) :
    (∀ t, dictGet (clientView db client_ip) tid = some t →
      t.parent_id ≠ some tid →
      (delete_task tid client_ip db).1 = .ok "Tarea eliminada correctamente" ∧
      clientView (delete_task tid client_ip db).2 client_ip =
        (clientView db client_ip).filter
          (fun u => !(u.id == tid) && !(u.parent_id == some tid)) ∧
      ∀ g ∈ clientView db client_ip, g.id ≠ tid → g.parent_id ≠ some tid →
        g ∈ clientView (delete_task tid client_ip db).2 client_ip) ∧
    (dictContains (clientView db client_ip) tid = false →
      (delete_task tid client_ip db).1 = .error .notFound) ∧
    (dictContains (clientView db client_ip) tid = true →
      (∀ u ∈ clientView db client_ip, u.id = tid → u.parent_id = some tid) →
      (delete_task tid client_ip db).1 = .error .keyError ∧
      clientView (delete_task tid client_ip db).2 client_ip =
        (clientView db client_ip).filter
          (fun u => !(u.parent_id == some tid))) := by
  have hv := gct_fst db client_ip
  refine ⟨?_, ?_, ?_⟩
  · intro t ht hnp
    have hc1 : dictContains (clientView db client_ip) tid = true := by
      simp [dictContains, ht]
    have hmem : t ∈ (clientView db client_ip).filter
        (fun u => !(u.parent_id == some tid)) := by
      refine List.mem_filter.mpr ⟨dictGet_mem _ _ _ ht, ?_⟩
      simp [hnp]
    have hc2 : dictContains ((clientView db client_ip).filter
        (fun u => !(u.parent_id == some tid))) tid = true :=
      dictContains_of_mem _ _ _ hmem (dictGet_id _ _ _ ht)
    have hres : delete_task tid client_ip db =
        (.ok "Tarea eliminada correctamente",
          storeSet (get_client_tasks db client_ip).2 client_ip
            (dictDel ((clientView db client_ip).filter
              (fun u => !(u.parent_id == some tid))) tid)) := by
      simp only [delete_task, hv, hc1, hc2, if_true]
    refine ⟨by rw [hres], ?_, ?_⟩
    · rw [hres]
      simp only [clientView_storeSet_self, dictDel, List.filter_filter]
      rfl
    · intro g hg hgid hgpid
      rw [hres]
      simp only [clientView_storeSet_self, dictDel, List.filter_filter]
      refine List.mem_filter.mpr ⟨hg, ?_⟩
      simp [hgid, hgpid]
  · intro h
    simp [delete_task, hv, h]
  · intro hc hall
    have hnone : dictGet ((clientView db client_ip).filter
        (fun u => !(u.parent_id == some tid))) tid = none := by
      refine dictGet_filter_none _ _ _ ?_
      intro u hu huid
      simp [hall u hu huid]
    have hc2 : dictContains ((clientView db client_ip).filter
        (fun u => !(u.parent_id == some tid))) tid = false := by
      simp [dictContains, hnone]
    have hres : delete_task tid client_ip db =
        (.error .keyError,
          storeSet (get_client_tasks db client_ip).2 client_ip
            ((clientView db client_ip).filter
              (fun u => !(u.parent_id == some tid)))) := by
      simp only [delete_task, hv, hc, hc2, Bool.false_eq_true, if_false, if_true]
    refine ⟨by rw [hres], ?_⟩
    rw [hres]
    simp [clientView_storeSet_self]

/-- C1 witness: delete task 1 in a collection P(id 1), C(id 2, parent 1),
G(id 3, parent 2) removes P and C, keeps the grandchild G. -/
theorem delete_task_spec_witness :
    (delete_task 1 "a"
        [("a", [{ baseTask with id := 1 },
                { baseTask with id := 2, parent_id := some 1 },
                { baseTask with id := 3, parent_id := some 2 }])]).1 =
      .ok "Tarea eliminada correctamente" ∧
    clientView (delete_task 1 "a"
        [("a", [{ baseTask with id := 1 },
                { baseTask with id := 2, parent_id := some 1 },
                { baseTask with id := 3, parent_id := some 2 }])]).2 "a" =
      [{ baseTask with id := 3, parent_id := some 2 }] := by
  have h := (delete_task_spec
    [("a", [{ baseTask with id := 1 },
            { baseTask with id := 2, parent_id := some 1 },
            { baseTask with id := 3, parent_id := some 2 }])] "a" 1).1
    { baseTask with id := 1 } (by decide) (by decide)
  refine ⟨h.1, ?_⟩
  rw [h.2.1]
  decide

/-- C1 counterexample: the original claim promises a success acknowledgement
for every id present in the collection, but deleting a self-parented task
makes the final `del` raise `KeyError` (an unhandled 500) after the cascade
pass already removed it; the cascade mutation persists. -/
theorem delete_task_spec_counterexample :
    (delete_task 1 "a" [("a", [selfParentTask])]).1 = .error .keyError ∧
    clientView (delete_task 1 "a" [("a", [selfParentTask])]).2 "a" = [] := by
  decide

/-- C8: Create Subtask with a present parent id yields exactly the task and
store that Create would yield on the same body with `parent_id` replaced by
the parent's id (whatever `parent_id` the body carried); with an absent
parent id it fails with NotFound and leaves the caller's collection
unchanged. -/
theorem create_subtask_spec (db : Store) (client_ip : String) (pid : Nat)
    (d : TaskCreate) (newId : Nat) (now : Int) :
    (dictContains (clientView db client_ip) pid = true →
      (create_subtask pid d client_ip newId now db).1 =
        .ok (create_task { d with parent_id := some pid } client_ip newId now db).1 ∧
      (create_subtask pid d client_ip newId now db).2 =
        (create_task { d with parent_id := some pid } client_ip newId now db).2) ∧
    (dictContains (clientView db client_ip) pid = false →
      (create_subtask pid d client_ip newId now db).1 = .error .notFound ∧
      clientView (create_subtask pid d client_ip newId now db).2 client_ip =
        clientView db client_ip) := by
  have hv := gct_fst db client_ip
  constructor
  · intro h
    constructor
    · simp only [create_subtask, create_task, hv, h, if_true]
    · simp only [create_subtask, create_task, hv, h, if_true]
  · intro h
    constructor
    · simp [create_subtask, hv, h]
    · simp only [create_subtask, hv, h, Bool.false_eq_true, if_false]
      exact clientView_gct_snd db client_ip client_ip

/-- C8 witness: creating a subtask of task 1 out of a body that itself
carries `parent_id = some 9` stores a task with `parent_id = some 1`. -/
theorem create_subtask_spec_witness :
    (create_subtask 1 { baseCreate with parent_id := some 9 } "a" 2 0
        [("a", [{ baseTask with id := 1 }])]).1 =
      .ok ((create_task { baseCreate with parent_id := some 1 } "a" 2 0
        [("a", [{ baseTask with id := 1 }])]).1) ∧
    (create_subtask 5 baseCreate "a" 2 0
        [("a", [{ baseTask with id := 1 }])]).1 = .error .notFound := by
  constructor
  · exact ((create_subtask_spec [("a", [{ baseTask with id := 1 }])] "a" 1
      { baseCreate with parent_id := some 9 } 2 0).1 (by decide)).1
  · exact ((create_subtask_spec [("a", [{ baseTask with id := 1 }])] "a" 5
      baseCreate 2 0).2 (by decide)).1

/-- C2 (amended): Partial Update on a present id, for a body whose
explicitly-present fields all carry schema-valid values (an explicit `null`
only on `description`, `due_date` or `parent_id`), stores a task whose
fields are exactly the input's where present and the stored ones where
absent, with `updated_at` refreshed to the current time — strictly greater
than before under a strictly increasing clock — and `id`, `created_at`
untouched; on an absent id it fails with NotFound; and a body explicitly
nulling `title`, `completed`, `priority` or `tags` instead drives the
stored object out of the `Task` schema and the request fails response
validation (an unhandled 500) rather than returning the task. -/
theorem partial_update_task_spec (db : Store) (client_ip : String) (tid : Nat)
    (data : TaskUpdate) (now : Int) :
    (dictGet (clientView db client_ip) tid = none →
      (partial_update_task tid data client_ip now db).1 = .error .notFound) ∧
    (∀ t, dictGet (clientView db client_ip) tid = some t →
      (isNullField data.title || isNullField data.completed ||
        isNullField data.priority || isNullField data.tags) = true →
      (partial_update_task tid data client_ip now db).1 =
        .error .schemaViolation) ∧
    (∀ t, dictGet (clientView db client_ip) tid = some t → t.updated_at < now →
      (isNullField data.title || isNullField data.completed ||
        isNullField data.priority || isNullField data.tags) = false →
      ∃ t', (partial_update_task tid data client_ip now db).1 = .ok t' ∧
        dictGet (clientView (partial_update_task tid data client_ip now db).2
          client_ip) tid = some t' ∧
        appliedField data.title t.title t'.title ∧
        appliedNullableField data.description t.description t'.description ∧
        appliedField data.completed t.completed t'.completed ∧
        appliedNullableField data.due_date t.due_date t'.due_date ∧
        appliedField data.priority t.priority t'.priority ∧
        appliedField data.tags t.tags t'.tags ∧
        appliedNullableField data.parent_id t.parent_id t'.parent_id ∧
        t'.updated_at = now ∧
        t.updated_at < t'.updated_at ∧
        t'.id = t.id ∧ t'.created_at = t.created_at) := by
  have hv := gct_fst db client_ip
  refine ⟨?_, ?_, ?_⟩
  · intro h
    simp [partial_update_task, hv, h]
  · intro t ht hnull
    simp [partial_update_task, hv, ht, hnull]
  · intro t ht hc hok
    have hid : t.id = tid := dictGet_id _ _ _ ht
    refine ⟨{ t with
        title := match data.title with
          | .val x => x
          | _ => t.title
        description := match data.description with
          | .unset => t.description
          | .null => none
          | .val x => some x
        completed := match data.completed with
          | .val x => x
          | _ => t.completed
        due_date := match data.due_date with
          | .unset => t.due_date
          | .null => none
          | .val x => some x
        priority := match data.priority with
          | .val x => x
          | _ => t.priority
        tags := match data.tags with
          | .val x => x
          | _ => t.tags
        parent_id := match data.parent_id with
          | .unset => t.parent_id
          | .null => none
          | .val x => some x
        updated_at := now }, ?_, ?_, ?_, ?_, ?_, ?_, ?_, ?_, ?_, ?_, ?_, ?_, ?_⟩
    · simp only [partial_update_task, hv, ht, hok, Bool.false_eq_true, if_false]
    · simp only [partial_update_task, hv, ht, hok, Bool.false_eq_true, if_false,
        clientView_storeSet_self]
      exact dictGet_dictInsert_self _ _ _ hid
    · exact ⟨fun x hx => by simp [hx], fun hx => by simp [hx]⟩
    · exact ⟨fun x hx => by simp [hx], fun hx => by simp [hx], fun hx => by simp [hx]⟩
    · exact ⟨fun x hx => by simp [hx], fun hx => by simp [hx]⟩
    · exact ⟨fun x hx => by simp [hx], fun hx => by simp [hx], fun hx => by simp [hx]⟩
    · exact ⟨fun x hx => by simp [hx], fun hx => by simp [hx]⟩
    · exact ⟨fun x hx => by simp [hx], fun hx => by simp [hx]⟩
    · exact ⟨fun x hx => by simp [hx], fun hx => by simp [hx], fun hx => by simp [hx]⟩
    · rfl
    · exact hc
    · rfl
    · rfl

/-- C2 witness: patching task 1 (title "X", priority 2, updated_at 5) with
only `completed = true` at time 10 keeps title "X" and priority 2, sets
completed, and moves `updated_at` strictly up, to 10. -/
theorem partial_update_task_spec_witness :
    ∃ t', (partial_update_task 1 { emptyUpdate with completed := .val true } "a" 10
        [("a", [demoStoredX])]).1 = .ok t' ∧
      t'.title = "X" ∧ t'.priority = 2 ∧ t'.completed = true ∧
      5 < t'.updated_at := by
  obtain ⟨t', h1, _, hT, _, hC, _, hP, _, _, hUp, hlt, _, _⟩ :=
    (partial_update_task_spec [("a", [demoStoredX])] "a" 1
      { emptyUpdate with completed := .val true } 10).2.2 demoStoredX
      (by decide) (by decide) (by decide)
  refine ⟨t', h1, ?_, ?_, ?_, ?_⟩
  · exact hT.2 rfl
  · exact hP.2 rfl
  · exact hC.1 true rfl
  · rw [hUp]
    decide

/-- C2 counterexample: the original claim covers every explicitly-present
field, but a PATCH body carrying `title: null` — accepted by pydantic and
kept by `exclude_unset` — does not yield the updated task: the handler
`setattr`s `None` into the required `title` and the request fails response
validation (an unhandled 500). -/
theorem partial_update_task_spec_counterexample :
    (partial_update_task 1 { emptyUpdate with title := .null } "a" 10
      [("a", [demoStoredX])]).1 = .error .schemaViolation := by
  decide

/-- C3 (amended): Full Update on a present id overwrites `title`,
`description`, `due_date`, `parent_id` unconditionally with the body values
(absent/null ones included); for `priority` and `tags` an omitted field is
parsed to the boundary default (3 / `[]`) and likewise overwrites the
stored value — the stored value is kept only when the field is supplied as
an explicit `null`; it refreshes `updated_at` and leaves `id`,
`created_at`, `completed` unchanged; on an absent id it fails with
NotFound. -/
theorem update_task_spec (db : Store) (client_ip : String) (tid : Nat)
    (data : TaskCreate) (now : Int) :
    (dictGet (clientView db client_ip) tid = none →
      (update_task tid data client_ip now db).1 = .error .notFound) ∧
    (∀ t, dictGet (clientView db client_ip) tid = some t →
      ∃ t', (update_task tid data client_ip now db).1 = .ok t' ∧
        dictGet (clientView (update_task tid data client_ip now db).2
          client_ip) tid = some t' ∧
        t'.title = data.title ∧
        t'.description = data.description ∧
        t'.due_date = data.due_date ∧
        t'.parent_id = data.parent_id ∧
        putDefaulted data.priority 3 t.priority t'.priority ∧
        putDefaulted data.tags [] t.tags t'.tags ∧
        t'.updated_at = now ∧
        t'.id = t.id ∧ t'.created_at = t.created_at ∧
        t'.completed = t.completed) := by
  have hv := gct_fst db client_ip
  constructor
  · intro h
    simp [update_task, hv, h]
  · intro t ht
    have hid : t.id = tid := dictGet_id _ _ _ ht
    refine ⟨{ t with
        title := data.title
        description := data.description
        due_date := data.due_date
        priority := match data.priority with
          | .unset => 3
          | .null => t.priority
          | .val p => p
        tags := match data.tags with
          | .unset => []
          | .null => t.tags
          | .val ts => ts
        parent_id := data.parent_id
        updated_at := now }, ?_, ?_, rfl, rfl, rfl, rfl, ?_, ?_, rfl, rfl, rfl, rfl⟩
    · simp only [update_task, hv, ht]
    · simp only [update_task, hv, ht, clientView_storeSet_self]
      exact dictGet_dictInsert_self _ _ _ hid
    · exact ⟨fun hx => by simp [hx], fun hx => by simp [hx], fun x hx => by simp [hx]⟩
    · exact ⟨fun hx => by simp [hx], fun hx => by simp [hx], fun x hx => by simp [hx]⟩

/-- C3 witness: a PUT on task 1 (stored priority 2, completed) carrying a
new title, a null description, an explicitly-null priority and omitted tags
overwrites title and description, keeps the stored priority 2 through the
explicit null, resets tags to the parse default `[]`, and keeps
completed. -/
theorem update_task_spec_witness :
    ∃ t', (update_task 1 demoPutNullPriority "a" 10
        [("a", [demoStoredFull])]).1 = .ok t' ∧
      t'.title = "new" ∧ t'.description = none ∧ t'.priority = 2 ∧
      t'.tags = [] ∧ t'.completed = true ∧ t'.updated_at = 10 := by
  obtain ⟨t', h1, _, hT, hD, _, _, hP, hTg, hUp, _, _, hC⟩ :=
    (update_task_spec [("a", [demoStoredFull])] "a" 1
      demoPutNullPriority 10).2 demoStoredFull (by decide)
  exact ⟨t', h1, hT, hD, hP.2.1 rfl, hTg.1 rfl, hC, hUp⟩

/-- C3 counterexample: the original claim says `priority` and `tags` keep
the previously stored value when not supplied in the input, but a PUT body
omitting both overwrites stored priority 2 with the parse-time default 3
and stored tags `["k"]` with `[]`. -/
theorem update_task_spec_counterexample :
    demoPutStored.priority = 2 ∧ demoPutStored.tags = ["k"] ∧
    (update_task 1 putOmitBody "a" 10 [("a", [demoPutStored])]).1 =
      .ok putOverwriteResult := by
  decide

/-- C4: with a tag filter that is not the degenerate empty string (covered
by `list_tasks_empty_tag_spec`), List equals the conjunctive spec filter —
completed, tag membership, priority, parent-only — applied over the
collection in insertion order, followed by dropping `skip` items and taking
at most `limit`; out-of-range `skip`/`limit` can only shorten the result. -/
theorem list_tasks_spec (db : Store) (client_ip : String) (completed : Option Bool)
    (tag : Option String) (priority : Option Nat) (parent : Option Bool)
    (limit skip : Nat) (htag : tag ≠ some "") :
    (list_tasks completed tag priority parent limit skip client_ip db).1 =
      (((clientView db client_ip).filter
        (matchesFiltersSpec completed tag priority (parent == some true))).drop
          skip).take limit := by
  have hv := gct_fst db client_ip
  simp only [list_tasks, hv]
  congr 1
  congr 1
  cases hpo : parent == some true <;>
    rcases completed with _ | b <;>
    rcases priority with _ | p <;>
    rcases tag with _ | s <;>
    simp only [hpo, Bool.false_eq_true, if_false, if_true] <;>
  first
    | (rw [show matchesFiltersSpec none none none ((false : Bool)) = (fun _ => true)
          from funext (fun t => by simp [matchesFiltersSpec])]
       rw [List.filter_true])
    | (try have hs : ¬(s = "") := by simpa using htag
       try rw [if_neg hs]
       try simp only [List.filter_filter]
       apply List.filter_congr
       intro t ht
       simp [matchesFiltersSpec, hpo, Bool.and_comm, Bool.and_left_comm,
         Bool.and_assoc])

/-- C4 witness: among tasks tagged ["x"], ["y"], ["x"], listing with
tag = "x", skip = 1, limit = 10 keeps the "x"-tagged tasks in insertion
order, drops the first and returns the remaining one. -/
theorem list_tasks_spec_witness :
    (list_tasks none (some "x") none none 10 1 "a"
      [("a", [demoTagged 1 ["x"], demoTagged 2 ["y"], demoTagged 3 ["x"]])]).1 =
      [demoTagged 3 ["x"]] := by
  rw [list_tasks_spec
    [("a", [demoTagged 1 ["x"], demoTagged 2 ["y"], demoTagged 3 ["x"]])]
    "a" none (some "x") none none 10 1 (by decide)]
  decide

/-! ### Queries depend only on the caller's collection -/

theorem get_task_congr (db1 db2 : Store) (ip : String)
    (h : clientView db1 ip = clientView db2 ip) (tid : Nat) :
    (get_task tid ip db1).1 = (get_task tid ip db2).1 := by
  simp only [get_task, gct_fst, h]
  split <;> rfl

theorem list_tasks_congr (db1 db2 : Store) (ip : String)
    (h : clientView db1 ip = clientView db2 ip) (completed : Option Bool)
    (tag : Option String) (priority : Option Nat) (parent : Option Bool)
    (limit skip : Nat) :
    (list_tasks completed tag priority parent limit skip ip db1).1 =
      (list_tasks completed tag priority parent limit skip ip db2).1 := by
  simp only [list_tasks, gct_fst, h]

theorem list_subtasks_congr (db1 db2 : Store) (ip : String)
    (h : clientView db1 ip = clientView db2 ip) (tid : Nat) :
    (list_subtasks tid ip db1).1 = (list_subtasks tid ip db2).1 := by
  simp only [list_subtasks, gct_fst, h]
  split <;> rfl

theorem tasks_stats_congr (db1 db2 : Store) (ip : String)
    (h : clientView db1 ip = clientView db2 ip) (now : Int) :
    (tasks_stats ip now db1).1 = (tasks_stats ip now db2).1 := by
  simp only [tasks_stats, gct_fst, h]

theorem tasks_notifications_congr (db1 db2 : Store) (ip : String)
    (h : clientView db1 ip = clientView db2 ip) (now : Int) :
    (tasks_notifications ip now db1).1 = (tasks_notifications ip now db2).1 := by
  simp only [tasks_notifications, gct_fst, h]

/-- C7: a create performed under client address A leaves B's collection
untouched for every B ≠ A — Get, List, List Subtasks, Stats and
Notifications under B all answer as before — and Get under B of the id
created under A (when that id is absent from B's collection) fails with
NotFound, exactly like a non-existent id. -/
theorem isolation_spec (db : Store) (A B : String) (d : TaskCreate)
    (newId : Nat) (now : Int) (hAB : A ≠ B) :
    clientView (create_task d A newId now db).2 B = clientView db B ∧
    (∀ tid, (get_task tid B (create_task d A newId now db).2).1 =
      (get_task tid B db).1) ∧
    (∀ completed tag priority parent limit skip,
      (list_tasks completed tag priority parent limit skip B
        (create_task d A newId now db).2).1 =
      (list_tasks completed tag priority parent limit skip B db).1) ∧
    (∀ tid, (list_subtasks tid B (create_task d A newId now db).2).1 =
      (list_subtasks tid B db).1) ∧
    (tasks_stats B now (create_task d A newId now db).2).1 =
      (tasks_stats B now db).1 ∧
    (tasks_notifications B now (create_task d A newId now db).2).1 =
      (tasks_notifications B now db).1 ∧
    (dictContains (clientView db B) newId = false →
      (get_task newId B (create_task d A newId now db).2).1 =
        .error .notFound) := by
  have hview : clientView (create_task d A newId now db).2 B = clientView db B := by
    show clientView (storeSet (get_client_tasks db A).2 A _) B = _
    rw [clientView_storeSet_ne _ _ _ _ hAB, clientView_gct_snd]
  refine ⟨hview, fun tid => get_task_congr _ _ _ hview tid,
    fun completed tag priority parent limit skip =>
      list_tasks_congr _ _ _ hview completed tag priority parent limit skip,
    fun tid => list_subtasks_congr _ _ _ hview tid,
    tasks_stats_congr _ _ _ hview now,
    tasks_notifications_congr _ _ _ hview now, ?_⟩
  intro hc
  have hg : dictGet (clientView db B) newId = none :=
    (dictContains_false_iff _ _).mp hc
  rw [get_task_congr _ _ _ hview newId]
  simp only [get_task, gct_fst, hg]

/-- C7 witness: on an empty store, after "a" creates task 5, client "b"
still sees an empty collection and Get 5 under "b" is NotFound. -/
theorem isolation_spec_witness :
    clientView (create_task baseCreate "a" 5 0 []).2 "b" = [] ∧
    (get_task 5 "b" (create_task baseCreate "a" 5 0 []).2).1 =
      .error .notFound := by
  have h := isolation_spec [] "a" "b" baseCreate 5 0 (by decide)
  refine ⟨?_, h.2.2.2.2.2.2 (by decide)⟩
  rw [h.1]
  decide

/-! ### The priority boundary gap -/

/-- C9: evaluation of the model at the claim's failing input. A PATCH body
`priority: null` passes the boundary validation — `Optional[int]` skips the
`ge`/`le` bounds for `None` — and the handler then `setattr`s `None` into
the stored task's `priority`, which is not an integer in [1,5]; the request
only fails afterwards, at response validation, with the ill-typed value
already stored. In the model the request reaches the schema-violation path
instead of staying in the typed store. -/
theorem priority_invariant_violation :
    validPriority JsonField.null = true ∧
    (partial_update_task 1 { emptyUpdate with priority := .null } "a" 1
      [("a", [{ baseTask with id := 1 }])]).1 = .error .schemaViolation := by
  decide

end SwiftTask
